import Mathlib

/-!
Verification of the Personnel Record Service (employee management system).

This file gives a shallow embedding of the validation and lifecycle logic of
the `employee` Django app — the leave-request state machine, the attendance
upsert, the employee validators, and the termination operation — and proves
or refutes the specified properties about them.

Conventions of the embedding:
* Dates are proleptic-Gregorian calendar dates; `Date.toOrdinal` is the civil
  day number (days-from-civil), which induces exactly the order and
  subtraction semantics of Python `datetime.date` (Python defines date
  comparison and subtraction through `toordinal`).
* Django `DecimalField` money amounts are modelled as `Int` (think: cents).
  Only ordering and Python truthiness (zero is falsy) of these values matter
  to the logic under verification.
* A table is a `List` of records; the primary key / unique constraints that
  the logic relies on are stated as explicit invariants.
* A Python `raise ValidationError(msg)` is an `Except.error`; the distinct
  messages raised by the source are distinct constructors of `ValError`.
-/

set_option autoImplicit false

namespace EMS

/-- A calendar date, as stored by a Django `DateField` (`datetime.date`). -/
structure Date where
  year : Int
  month : Int
  day : Int
deriving DecidableEq, Repr

/-- Civil day number of a date (days-from-civil).  Python's `datetime.date`
defines both its total order and date subtraction via this ordinal. -/
def Date.toOrdinal (d : Date) : Int :=
  let y : Int := if d.month ≤ 2 then d.year - 1 else d.year
  let era : Int := (if 0 ≤ y then y else y - 399) / 400
  let yoe : Int := y - era * 400
  let mp : Int := (d.month + 9) % 12
  let doy : Int := (153 * mp + 2) / 5 + d.day - 1
  let doe : Int := yoe * 365 + yoe / 4 - yoe / 100 + doy
  era * 146097 + doe

/-- A time of day, as stored by a Django `TimeField` (`datetime.time`). -/
structure Time where
  hour : Int
  minute : Int
deriving DecidableEq, Repr

/-- Minutes since midnight; Python `datetime.time` comparison is the
lexicographic order on (hour, minute), i.e. the order of this value. -/
def Time.toMinutes (t : Time) : Int :=
  t.hour * 60 + t.minute

/-- `Employee.STATUS_CHOICES` from `models.py`. -/
inductive EmpStatus where
  | active
  | on_leave
  | terminated
  | resigned
deriving DecidableEq, Repr

/-- `LeaveRequest.STATUS_CHOICES` from `models.py`. -/
inductive LeaveStatus where
  | pending
  | approved
  | rejected
  | cancelled
deriving DecidableEq, Repr

/-- `Attendance.STATUS_CHOICES` from `models.py`. -/
inductive AttStatus where
  | present
  | absent
  | half_day
  | late
  | on_leave
deriving DecidableEq, Repr

/-- The fields of `Position` relevant to the verified logic (`models.py`).
`min_salary` / `max_salary` are nullable `DecimalField`s. -/
structure Position where
  title : String
  min_salary : Option Int
  max_salary : Option Int
deriving DecidableEq, Repr

/-- The fields of `LeaveRequest` relevant to the verified logic
(`models.py`).  `pk` is the auto primary key; `employee` and `approved_by`
are foreign keys, kept as ids; `approval_date` is a timestamp. -/
structure LeaveRequest where
  pk : Nat
  employee : Nat
  leave_type : String
  start_date : Date
  end_date : Date
  reason : String
  status : LeaveStatus
  approved_by : Option Nat
  approval_date : Option Nat
  rejection_reason : String
deriving DecidableEq, Repr

/-- `LeaveRequest.total_days` (`models.py`):
`(self.end_date - self.start_date).days + 1`.  It is a `@property`, i.e. a
function of the two stored dates, recomputed on access and never stored. -/
def LeaveRequest.total_days (r : LeaveRequest) : Int :=
  (r.end_date.toOrdinal - r.start_date.toOrdinal) + 1

/-- The fields of `Employee` relevant to the verified lifecycle logic
(`models.py`). -/
structure EmployeeRec where
  pk : Nat
  employee_id : String
  status : EmpStatus
  date_joined : Option Date
  date_left : Option Date
  notes : String
deriving DecidableEq, Repr

/-- Zero-padded two-digit rendering, as in Python `str(date)`. -/
def pad2 (n : Int) : String :=
  if n < 10 then "0" ++ toString n else toString n

/-- Zero-padded four-digit year rendering, as in Python `str(date)`. -/
def pad4 (n : Int) : String :=
  if n < 10 then "000" ++ toString n
  else if n < 100 then "00" ++ toString n
  else if n < 1000 then "0" ++ toString n
  else toString n

/-- Python `str(datetime.date)`: ISO `YYYY-MM-DD`. -/
def reprDate (d : Date) : String :=
  pad4 d.year ++ "-" ++ pad2 d.month ++ "-" ++ pad2 d.day

/-- The text appended to `notes` by `EmployeeViewSet.terminate`
(`api_views.py`): the f-string
`"\n\nTermination Date: " + str(date_left) + "\nReason: " + reason`. -/
def terminationNote (date_left : Date) (reason : String) : String :=
  ("\n\nTermination Date: " ++ reprDate date_left ++ "\nReason: ") ++ reason

/-- `EmployeeViewSet.terminate` (`api_views.py`, lines 128–141): with no
precondition on the current status, set `status` to `terminated`, set
`date_left`, and append the termination note to `notes`, then save. -/
def EmployeeViewSet.terminate (e : EmployeeRec) (date_left : Date) (reason : String) :
    EmployeeRec :=
  { e with
    status := .terminated
    date_left := some date_left
    notes := e.notes ++ terminationNote date_left reason }

/-- Python truthiness of an optional numeric value: `None` and `0` are falsy.
This is the test performed by `if data.get('salary'):` and
`if position.min_salary:` in `serializers.py`. -/
def truthyNum : Option Int → Bool
  | none => false
  | some v => decide (v ≠ 0)

/-- The distinct `ValidationError`s raised by the validators under
verification; one constructor per distinct raise site in the source. -/
inductive ValError where
  | dateOrder
  | salaryBelowMin (m : Int)
  | salaryAboveMax (m : Int)
  | checkOutBeforeCheckIn
deriving DecidableEq, Repr

/-- The validated-data dictionary seen by
`EmployeeCreateUpdateSerializer.validate` and `EmployeeForm.clean`: the
fields the cross-field checks read.  `position` carries the referenced
`Position` row (a required FK on the model, but possibly absent from a
partial-update payload). -/
structure EmployeeData where
  employee_id : String
  email : String
  date_joined : Option Date
  date_left : Option Date
  salary : Option Int
  position : Option Position
deriving DecidableEq, Repr

/-- The first check of `EmployeeCreateUpdateSerializer.validate` and of
`EmployeeForm.clean`: `data.get('date_left') and data.get('date_joined')`
are truthy (a present `datetime.date` is always truthy) and
`data['date_left'] < data['date_joined']`. -/
def dateOrderBad (d : EmployeeData) : Bool :=
  match d.date_left, d.date_joined with
  | some l, some j => decide (l.toOrdinal < j.toOrdinal)
  | _, _ => false

/-- `EmployeeCreateUpdateSerializer.validate` (`serializers.py`, lines
100–114).  Checks run in source order and the first failing check raises:
date ordering first, then — only when `data.get('salary')` is truthy and a
position is available (the payload's, else the edited instance's) — the
salary bounds, each bound guarded by its own truthiness. -/
def EmployeeCreateUpdateSerializer.validate (instPos : Option Position)
    (d : EmployeeData) : Except ValError EmployeeData :=
  if dateOrderBad d then .error .dateOrder
  else if truthyNum d.salary then
    match d.position.orElse (fun _ => instPos) with
    | some p =>
      if truthyNum p.min_salary && decide (d.salary.getD 0 < p.min_salary.getD 0) then
        .error (.salaryBelowMin (p.min_salary.getD 0))
      else if truthyNum p.max_salary && decide (p.max_salary.getD 0 < d.salary.getD 0) then
        .error (.salaryAboveMax (p.max_salary.getD 0))
      else .ok d
    | none => .ok d
  else .ok d

/-- `EmployeeForm.clean` (`forms.py`, lines 61–69): the only cross-field
check on the form path is the date-ordering rule; the form performs no
salary-bounds check. -/
def EmployeeForm.clean (d : EmployeeData) : Except ValError EmployeeData :=
  if dateOrderBad d then .error .dateOrder else .ok d

/-- Modelled from the spec (§4.1, §8): the date-ordering rule as the spec
states it — both dates present and `date_left < date_joined`.  Used to
compare the spec's notion of a violated rule with the code's behaviour. -/
def specDateRuleViolated (d : EmployeeData) : Bool :=
  match d.date_left, d.date_joined with
  | some l, some j => decide (l.toOrdinal < j.toOrdinal)
  | _, _ => false

/-- Modelled from the spec (§4.1, §8): the salary-bounds rule as the spec
states it — salary and position present, and the salary outside
`[min_salary, max_salary]` wherever each bound is set (an absent bound is
unconstrained).  Used to compare the spec's notion with the code's. -/
def specSalaryRuleViolated (d : EmployeeData) : Bool :=
  match d.salary, d.position with
  | some s, some p =>
    (match p.min_salary with | some m => decide (s < m) | none => false) ||
    (match p.max_salary with | some m => decide (m < s) | none => false)
  | _, _ => false

/-- The fields of `Attendance` (`models.py`).  The table carries
`unique_together = ['employee', 'date']`. -/
structure Attendance where
  employee : Nat
  date : Date
  check_in : Option Time
  check_out : Option Time
  status : AttStatus
  notes : String
deriving DecidableEq, Repr

/-- The `unique_together` key test: does record `a` occupy the
`(employee, date)` slot `(e, dt)`? -/
def attKeyMatches (e : Nat) (dt : Date) (a : Attendance) : Bool :=
  decide (a.employee = e ∧ a.date = dt)

/-- `Attendance.objects.update_or_create(employee_id=…, date=…,
defaults={'status': …})` as called by `AttendanceViewSet.bulk_mark`
(`api_views.py`, lines 222–229): if a row with the key exists, update its
`status`; otherwise insert a fresh row with that key and status. -/
def Attendance.update_or_create (db : List Attendance) (e : Nat) (dt : Date)
    (st : AttStatus) : List Attendance :=
  if db.any (attKeyMatches e dt) then
    db.map (fun a => if attKeyMatches e dt a then { a with status := st } else a)
  else
    db ++ [{ employee := e, date := dt, check_in := none, check_out := none,
             status := st, notes := "" }]

/-- Number of rows of the table occupying the `(employee, date)` slot. -/
def countKey (db : List Attendance) (e : Nat) (dt : Date) : Nat :=
  db.countP (attKeyMatches e dt)

/-- The storage-layer uniqueness constraint
(`unique_together = ['employee', 'date']`, `models.py` lines 201–204):
at most one row per `(employee, date)` key. -/
def attUnique (db : List Attendance) : Prop :=
  ∀ e dt, countKey db e dt ≤ 1

/-- A batch of marks applied in sequence, each through the upsert. -/
def applyMarks (db : List Attendance) (ops : List (Nat × Date × AttStatus)) :
    List Attendance :=
  ops.foldl (fun acc o => Attendance.update_or_create acc o.1 o.2.1 o.2.2) db

/-- The `for emp_id in employee_ids` loop of `AttendanceViewSet.bulk_mark`:
`update_or_create` with a foreign-key id that resolves to no stored employee
raises `IntegrityError`, which aborts the loop; rows written before the bad
id persist (each save autocommits).  `emps` is the set of stored employee
primary keys. -/
def bulkMarkLoop (emps : List Nat) (dt : Date) (st : AttStatus) :
    List Attendance → List Nat → List Attendance × Option String
  | db, [] => (db, none)
  | db, i :: rest =>
    if emps.contains i then
      bulkMarkLoop emps dt st (Attendance.update_or_create db i dt st) rest
    else (db, some "IntegrityError")

/-- `AttendanceViewSet.bulk_mark` (`api_views.py`, lines 209–232): reject a
missing date or empty id list, then run the per-id upsert loop.  Returns the
resulting table and the error, if any, that aborted processing. -/
def AttendanceViewSet.bulk_mark (emps : List Nat) (db : List Attendance)
    (dt : Option Date) (employee_ids : List Nat) (st : AttStatus) :
    List Attendance × Option String :=
  match dt with
  | none => (db, some "Date and employee_ids are required")
  | some d =>
    if employee_ids.isEmpty then (db, some "Date and employee_ids are required")
    else bulkMarkLoop emps d st db employee_ids

/-- `AttendanceSerializer.validate` (`serializers.py`, lines 140–145): when
both times are given (a present `datetime.time` can be falsy only at
midnight, which cannot make this check pass wrongly since `00:00` is the
minimum; the source guards on truthiness of both), reject
`check_out < check_in`. -/
def AttendanceSerializer.validate (a : Attendance) : Except ValError Attendance :=
  match a.check_out, a.check_in with
  | some o, some i =>
    if o.toMinutes < i.toMinutes then .error .checkOutBeforeCheckIn else .ok a
  | _, _ => .ok a

/-- `AttendanceForm` (`forms.py`, lines 126–139): the form declares fields
and widgets only; it defines no `clean` override and the `Attendance` model
has no model-level `clean`, so form cleaning performs no cross-field
comparison of `check_in` and `check_out` (field-level validation is captured
here by the types). -/
def AttendanceForm.clean (a : Attendance) : Except ValError Attendance :=
  .ok a

/-- The authenticated actor (`django.contrib.auth.models.User` as used by
`permissions.py` and `api_views.py`): staff flag, group names, and the
optional reverse one-to-one link `employee_profile` to an `Employee` row
(kept as its pk). -/
structure User where
  id : Nat
  is_staff : Bool
  groups : List String
  employee_profile : Option Nat
deriving DecidableEq, Repr

/-- The elevated role as tested by `IsHROrReadOnly` (`permissions.py`, lines
4–18): `is_staff` or membership of the `HR` group. -/
def isElevated (u : User) : Bool :=
  u.is_staff || u.groups.contains "HR"

/-- `LeaveRequestViewSet.get_queryset` (`api_views.py`, lines 247–256): if
the user has an `employee_profile`, return only that employee's requests;
otherwise return the whole table.  (The role is not consulted.) -/
def LeaveRequestViewSet.get_queryset (db : List LeaveRequest) (u : User) :
    List LeaveRequest :=
  match u.employee_profile with
  | some emp => db.filter (fun r => decide (r.employee = emp))
  | none => db

/-- The client errors surfaced by the leave-request actions. -/
inductive ApiError where
  | badRequest (msg : String)
  | notFound
deriving DecidableEq, Repr

/-- `self.get_object()` by primary key over the leave-request table. -/
def findByPk (db : List LeaveRequest) (pk : Nat) : Option LeaveRequest :=
  db.find? (fun r => decide (r.pk = pk))

/-- Saving a fetched-and-modified row: replace the row(s) carrying `pk` with
the updated record. -/
def updateByPk (db : List LeaveRequest) (pk : Nat) (newR : LeaveRequest) :
    List LeaveRequest :=
  db.map (fun q => if q.pk = pk then newR else q)

/-- `LeaveRequestViewSet.approve` (`api_views.py`, lines 258–275); the
server-rendered `leave_request_approve` (`views.py`, lines 314–329) guards
and mutates identically.  Fetch by pk; refuse unless the status is
`pending`; otherwise set status `approved`, record the actor and the current
timestamp, and save.  Returns the resulting table and the outcome. -/
def LeaveRequestViewSet.approve (db : List LeaveRequest) (pk actor now : Nat) :
    List LeaveRequest × Except ApiError Unit :=
  match findByPk db pk with
  | none => (db, .error .notFound)
  | some r =>
    if r.status ≠ .pending then
      (db, .error (.badRequest "Only pending requests can be approved"))
    else
      (updateByPk db pk
        { r with status := .approved, approved_by := some actor,
                 approval_date := some now },
       .ok ())

/-- `LeaveRequestViewSet.reject` (`api_views.py`, lines 277–296); the
server-rendered `leave_request_reject` (`views.py`, lines 332–348) guards
and mutates identically.  Like `approve` but sets status `rejected` and
stores the given rejection reason. -/
def LeaveRequestViewSet.reject (db : List LeaveRequest) (pk actor now : Nat)
    (reason : String) : List LeaveRequest × Except ApiError Unit :=
  match findByPk db pk with
  | none => (db, .error .notFound)
  | some r =>
    if r.status ≠ .pending then
      (db, .error (.badRequest "Only pending requests can be rejected"))
    else
      (updateByPk db pk
        { r with status := .rejected, approved_by := some actor,
                 approval_date := some now, rejection_reason := reason },
       .ok ())

/-- A candidate employee record violating both the date-ordering rule and
the salary-bounds rule at once (date_left before date_joined; salary 50
below the position minimum 100). -/
def c3Record : EmployeeData :=
  { employee_id := "EMP001", email := "a@x.com",
    date_joined := some ⟨2024, 1, 10⟩, date_left := some ⟨2024, 1, 1⟩,
    salary := some 50, position := some ⟨"Dev", some 100, some 200⟩ }

/-- A candidate employee record with salary 0 against a position whose
minimum salary is 100 (dates unset). -/
def c6Record : EmployeeData :=
  { employee_id := "EMP002", email := "b@x.com",
    date_joined := none, date_left := none,
    salary := some 0, position := some ⟨"Dev", some 100, some 200⟩ }

/-- A candidate employee record with salary 50 against a position with
bounds [100, 200] (dates unset). -/
def c6wRecord : EmployeeData :=
  { employee_id := "EMP004", email := "d@x.com",
    date_joined := none, date_left := none,
    salary := some 50, position := some ⟨"Dev", some 100, some 200⟩ }

/-- A candidate employee record with both dates set out of order and no
salary given. -/
def c7Record : EmployeeData :=
  { employee_id := "EMP003", email := "c@x.com",
    date_joined := some ⟨2022, 5, 1⟩, date_left := some ⟨2022, 4, 1⟩,
    salary := none, position := none }

/-- An attendance record whose check_out (09:00) precedes its check_in
(10:00). -/
def attBadRec : Attendance :=
  { employee := 1, date := ⟨2024, 1, 1⟩, check_in := some ⟨10, 0⟩,
    check_out := some ⟨9, 0⟩, status := .present, notes := "" }

/-- A pending leave request with pk 1 for employee 5. -/
def rPend : LeaveRequest :=
  { pk := 1, employee := 5, leave_type := "annual",
    start_date := ⟨2024, 3, 1⟩, end_date := ⟨2024, 3, 4⟩, reason := "v",
    status := .pending, approved_by := none, approval_date := none,
    rejection_reason := "" }

/-- An already-approved leave request with pk 2 for employee 6. -/
def rDone : LeaveRequest :=
  { pk := 2, employee := 6, leave_type := "sick",
    start_date := ⟨2024, 4, 1⟩, end_date := ⟨2024, 4, 2⟩, reason := "w",
    status := .approved, approved_by := some 3, approval_date := some 50,
    rejection_reason := "" }

/-- The spec's worked leave-request example: 2024-01-01 through
2024-01-05. -/
def c10Record : LeaveRequest :=
  { pk := 9, employee := 1, leave_type := "annual",
    start_date := ⟨2024, 1, 1⟩, end_date := ⟨2024, 1, 5⟩, reason := "r",
    status := .pending, approved_by := none, approval_date := none,
    rejection_reason := "" }

/-! ## Theorems -/

/-- C8: for every employee in any current status, `terminate` succeeds
unconditionally; it sets status `terminated`, sets `date_left` to the given
date, and the new notes are the previous notes with an appended note whose
tail is the given reason text; all other fields are unchanged. -/
theorem terminate_unconditional (e : EmployeeRec) (dt : Date) (reason : String) :
    (EmployeeViewSet.terminate e dt reason).status = .terminated ∧
    (EmployeeViewSet.terminate e dt reason).date_left = some dt ∧
    (EmployeeViewSet.terminate e dt reason).notes =
      e.notes ++ terminationNote dt reason ∧
    (∃ s, (EmployeeViewSet.terminate e dt reason).notes = e.notes ++ s ∧
      ∃ t, s = t ++ reason) ∧
    (EmployeeViewSet.terminate e dt reason).pk = e.pk ∧
    (EmployeeViewSet.terminate e dt reason).employee_id = e.employee_id ∧
    (EmployeeViewSet.terminate e dt reason).date_joined = e.date_joined :=
  ⟨rfl, rfl, rfl,
   ⟨terminationNote dt reason, rfl,
    "\n\nTermination Date: " ++ reprDate dt ++ "\nReason: ", rfl⟩,
   rfl, rfl, rfl⟩

/-- C10: `total_days` counts both endpoints inclusively: when the dates are
ordered it equals the number of calendar days (civil ordinals) lying between
`start_date` and `end_date` inclusive, and it is positive. -/
theorem leave_total_days_inclusive (r : LeaveRequest)
    (h : r.start_date.toOrdinal ≤ r.end_date.toOrdinal) :
    r.total_days =
      ((Finset.Icc r.start_date.toOrdinal r.end_date.toOrdinal).card : Int) ∧
    0 < r.total_days := by
  have hc : ((Finset.Icc r.start_date.toOrdinal r.end_date.toOrdinal).card : Int)
      = r.end_date.toOrdinal + 1 - r.start_date.toOrdinal :=
    Int.card_Icc_of_le _ _ (by omega)
  unfold LeaveRequest.total_days
  omega

/-- C10 witness: the spec's example, start 2024-01-01 and end 2024-01-05,
has ordered ordinals, satisfies the inclusive-count property, and yields
`total_days = 5`. -/
theorem leave_total_days_inclusive_witness :
    c10Record.start_date.toOrdinal ≤ c10Record.end_date.toOrdinal ∧
    (c10Record.total_days =
       ((Finset.Icc c10Record.start_date.toOrdinal
          c10Record.end_date.toOrdinal).card : Int) ∧
     0 < c10Record.total_days) ∧
    c10Record.total_days = 5 :=
  ⟨by decide, leave_total_days_inclusive c10Record (by decide), by decide⟩

/-- C9 counterexample: the form path accepts an attendance record whose
check_out (09:00) precedes its check_in (10:00), which the REST serializer
path rejects — so the claim that the validation applies to every exposed
create/edit path is false. -/
theorem attendance_form_accepts_reversed_times :
    (∃ i o, attBadRec.check_in = some i ∧ attBadRec.check_out = some o ∧
      o.toMinutes < i.toMinutes) ∧
    AttendanceForm.clean attBadRec = .ok attBadRec ∧
    AttendanceSerializer.validate attBadRec = .error .checkOutBeforeCheckIn :=
  ⟨⟨⟨10, 0⟩, ⟨9, 0⟩, rfl, rfl, by decide⟩, rfl, rfl⟩

/-- C9 (amended): the check_out-not-before-check_in rule is enforced on the
REST serializer path — it rejects exactly when both times are given and
check_out precedes check_in, and raises no other error — while the form
path performs no such check and accepts every record. -/
theorem attendance_time_rule (a : Attendance) :
    (AttendanceSerializer.validate a = .error .checkOutBeforeCheckIn ↔
      (∃ i o, a.check_in = some i ∧ a.check_out = some o ∧
        o.toMinutes < i.toMinutes)) ∧
    (AttendanceSerializer.validate a = .ok a ∨
      AttendanceSerializer.validate a = .error .checkOutBeforeCheckIn) ∧
    AttendanceForm.clean a = .ok a := by
  refine ⟨?_, ?_, rfl⟩ <;>
    unfold AttendanceSerializer.validate <;>
    rcases ho : a.check_out with _ | o <;>
    rcases hi : a.check_in with _ | i <;>
    simp [ho, hi]
  by_cases hlt : o.toMinutes < i.toMinutes
  · simp [hlt]
  · simp only [hlt, if_false]
    omega

/-- C2 counterexample: an actor holding the elevated role (staff and in the
HR group) whose account is linked to employee 1 does not see employee 2's
leave request in the list — the code scopes by the linked employee profile
and never consults the role, so the claim that elevated actors see all
requests is false. -/
theorem leave_visibility_counterexample :
    isElevated { id := 7, is_staff := true, groups := ["HR"],
                 employee_profile := some 1 } = true ∧
    rDone ∈ [rPend, rDone] ∧
    rDone.employee = 6 ∧
    rDone ∉ LeaveRequestViewSet.get_queryset [rPend, rDone]
      { id := 7, is_staff := true, groups := ["HR"],
        employee_profile := some 1 } :=
  ⟨rfl, by decide, rfl, by decide⟩

/-- C2 (amended): leave-request list visibility is scoped by the actor's
linked employee profile, not by role: a request is listed exactly when it is
stored and, whenever the actor is linked to an employee record, it belongs
to that employee; an actor with no linked employee record sees every stored
request. -/
theorem leave_visibility_scoped_by_profile (db : List LeaveRequest) (u : User)
    (r : LeaveRequest) :
    r ∈ LeaveRequestViewSet.get_queryset db u ↔
      (r ∈ db ∧ ∀ e, u.employee_profile = some e → r.employee = e) := by
  unfold LeaveRequestViewSet.get_queryset
  rcases hprof : u.employee_profile with _ | emp
  · simp
  · simp only [List.mem_filter, decide_eq_true_eq, Option.some.injEq]
    refine and_congr_right fun _ => ⟨fun h e he => ?_, fun h => h emp rfl⟩
    rw [← he]
    exact h

/-- C3 counterexample: a record violating both the date-ordering rule and
the salary-bounds rule is rejected with the date-ordering error alone — the
validator raises on the first failing check instead of reporting every
violated rule together. -/
theorem employee_validator_short_circuits :
    specDateRuleViolated c3Record = true ∧
    specSalaryRuleViolated c3Record = true ∧
    EmployeeCreateUpdateSerializer.validate none c3Record = .error .dateOrder :=
  ⟨rfl, rfl, rfl⟩

/-- When the date guard fires, the serializer raises the date-ordering
error and nothing else. -/
theorem validate_dateOrder_of_bad (d : EmployeeData)
    (instPos : Option Position) (hb : dateOrderBad d = true) :
    EmployeeCreateUpdateSerializer.validate instPos d = .error .dateOrder := by
  unfold EmployeeCreateUpdateSerializer.validate
  simp [hb]

/-- C3 (amended): the validator reports only the first violated rule in
source order: whenever the date-ordering rule is violated it raises exactly
the date-ordering error, regardless of any simultaneous salary-bounds
violation. -/
theorem employee_validator_first_error_reported (d : EmployeeData)
    (instPos : Option Position) (h : specDateRuleViolated d = true) :
    EmployeeCreateUpdateSerializer.validate instPos d = .error .dateOrder :=
  validate_dateOrder_of_bad d instPos h

/-- C3 witness: the doubly-violating record satisfies the amended claim's
hypothesis and is rejected with the date-ordering error. -/
theorem employee_validator_first_error_reported_witness :
    specDateRuleViolated c3Record = true ∧
    EmployeeCreateUpdateSerializer.validate none c3Record = .error .dateOrder :=
  ⟨rfl, employee_validator_first_error_reported c3Record none rfl⟩

/-- The date-ordering guard fires exactly when both dates are present and
`date_left` precedes `date_joined`. -/
theorem dateOrderBad_iff (d : EmployeeData) :
    dateOrderBad d = true ↔
      ∃ l j, d.date_left = some l ∧ d.date_joined = some j ∧
        l.toOrdinal < j.toOrdinal := by
  unfold dateOrderBad
  rcases d.date_left with _ | l <;> rcases d.date_joined with _ | j <;> simp

/-- When the date guard does not fire, the serializer never raises the
date-ordering error (its remaining raises are the salary errors). -/
theorem validate_ne_dateOrder (d : EmployeeData) (instPos : Option Position)
    (hb : dateOrderBad d = false) :
    EmployeeCreateUpdateSerializer.validate instPos d ≠ .error .dateOrder := by
  unfold EmployeeCreateUpdateSerializer.validate
  rw [hb]
  simp only [Bool.false_eq_true, if_false]
  by_cases ht : truthyNum d.salary = true
  · simp only [ht, if_true]
    rcases hop : d.position.orElse fun _ => instPos with _ | p
    · simp
    · by_cases h1 : (truthyNum p.min_salary &&
          decide (d.salary.getD 0 < p.min_salary.getD 0)) = true
      · simp [h1]
      · by_cases h2 : (truthyNum p.max_salary &&
            decide (p.max_salary.getD 0 < d.salary.getD 0)) = true
        · simp [h1, h2]
        · simp [h1, h2]
  · simp [ht]

/-- C7: on both exposed save paths (REST serializer and form), the
date-ordering error is raised exactly when `date_joined` and `date_left`
are both set and `date_left` precedes `date_joined`; when either date is
absent the form accepts the record and the serializer raises no
date-ordering error. -/
theorem date_order_rule (d : EmployeeData) (instPos : Option Position) :
    (EmployeeCreateUpdateSerializer.validate instPos d = .error .dateOrder ↔
      ∃ l j, d.date_left = some l ∧ d.date_joined = some j ∧
        l.toOrdinal < j.toOrdinal) ∧
    (EmployeeForm.clean d = .error .dateOrder ↔
      ∃ l j, d.date_left = some l ∧ d.date_joined = some j ∧
        l.toOrdinal < j.toOrdinal) ∧
    ((d.date_left = none ∨ d.date_joined = none) →
      EmployeeForm.clean d = .ok d ∧
      EmployeeCreateUpdateSerializer.validate instPos d ≠ .error .dateOrder) := by
  by_cases hb : dateOrderBad d = true
  · refine ⟨?_, ?_, ?_⟩
    · rw [← dateOrderBad_iff]
      simp only [hb, iff_true]
      exact validate_dateOrder_of_bad d instPos hb
    · rw [← dateOrderBad_iff]
      simp only [hb, iff_true]
      unfold EmployeeForm.clean
      simp [hb]
    · intro habs
      exfalso
      rcases (dateOrderBad_iff d).mp hb with ⟨l, j, hl, hj, _⟩
      rcases habs with h | h <;> simp [h] at hl hj
  · have hbf : dateOrderBad d = false := by
      revert hb; cases dateOrderBad d <;> simp
    refine ⟨?_, ?_, fun _ => ⟨?_, validate_ne_dateOrder d instPos hbf⟩⟩
    · rw [← dateOrderBad_iff]
      simp only [hbf, Bool.false_eq_true, iff_false]
      exact fun h => validate_ne_dateOrder d instPos hbf h
    · rw [← dateOrderBad_iff]
      simp only [hbf, Bool.false_eq_true, iff_false]
      unfold EmployeeForm.clean
      simp [hbf]
    · unfold EmployeeForm.clean
      simp [hbf]

/-- C7 witness: a record with date_left 2022-04-01 before date_joined
2022-05-01 satisfies the characterization: both save paths raise the
date-ordering error on it. -/
theorem date_order_rule_witness :
    ((EmployeeCreateUpdateSerializer.validate none c7Record =
        .error .dateOrder ↔
      ∃ l j, c7Record.date_left = some l ∧ c7Record.date_joined = some j ∧
        l.toOrdinal < j.toOrdinal) ∧
    (EmployeeForm.clean c7Record = .error .dateOrder ↔
      ∃ l j, c7Record.date_left = some l ∧ c7Record.date_joined = some j ∧
        l.toOrdinal < j.toOrdinal) ∧
    ((c7Record.date_left = none ∨ c7Record.date_joined = none) →
      EmployeeForm.clean c7Record = .ok c7Record ∧
      EmployeeCreateUpdateSerializer.validate none c7Record ≠
        .error .dateOrder)) ∧
    EmployeeCreateUpdateSerializer.validate none c7Record = .error .dateOrder ∧
    EmployeeForm.clean c7Record = .error .dateOrder :=
  ⟨date_order_rule c7Record none, rfl, rfl⟩

/-- C6 counterexample: an employee record with salary 0 against a position
whose minimum salary is 100 is outside the spec's salary bounds, yet the
serializer accepts it — Python truthiness (`if data.get('salary'):`) skips
the bounds check for a zero salary, so the claimed "fails if and only if
outside the bounds" is false. -/
theorem salary_zero_skips_bounds_check :
    specSalaryRuleViolated c6Record = true ∧
    EmployeeCreateUpdateSerializer.validate none c6Record = .ok c6Record :=
  ⟨rfl, rfl⟩

/-- An if-then-else chain of two raises produces an error exactly when one
of its guards holds. -/
theorem exists_error_ite2 (c1 c2 : Prop) [Decidable c1] [Decidable c2]
    (x y : ValError) (v : EmployeeData) :
    (∃ err, (if c1 then Except.error x else if c2 then Except.error y
      else Except.ok v) = Except.error err) ↔ (c1 ∨ c2) := by
  by_cases h1 : c1
  · simp [h1]
  · by_cases h2 : c2 <;> simp [h1, h2]

/-- A single conditional raise produces an error exactly when its guard
holds. -/
theorem exists_error_ite1 (c1 : Prop) [Decidable c1] (x : ValError)
    (v : EmployeeData) :
    (∃ err, (if c1 then Except.error x else Except.ok v) = Except.error err) ↔
      c1 := by
  by_cases h1 : c1 <;> simp [h1]

/-- C6 (amended): for a record passing the date check with salary and
position both present, saving fails exactly when the salary is nonzero and
falls below a set-and-nonzero minimum or above a set-and-nonzero maximum —
the spec's bounds rule holds with "absent bound" weakened to "absent or
zero bound" and with zero salaries exempted (Python truthiness). -/
theorem salary_bounds_enforced_modulo_truthiness (d : EmployeeData) (s : Int)
    (p : Position) (hs : d.salary = some s) (hp : d.position = some p)
    (hdate : dateOrderBad d = false) :
    (∃ err, EmployeeCreateUpdateSerializer.validate none d = .error err) ↔
      (s ≠ 0 ∧ ((∃ m, p.min_salary = some m ∧ m ≠ 0 ∧ s < m) ∨
                (∃ m, p.max_salary = some m ∧ m ≠ 0 ∧ m < s))) := by
  obtain ⟨t, pmin, pmax⟩ := p
  by_cases hs0 : s = 0
  · subst hs0
    simp [EmployeeCreateUpdateSerializer.validate, hdate, hs, truthyNum]
  · rcases pmin with _ | m1 <;> rcases pmax with _ | m2 <;>
      simp [EmployeeCreateUpdateSerializer.validate, hdate, hs, hp,
        truthyNum, Option.orElse, hs0, exists_error_ite2, exists_error_ite1]

/-- C6 witness: a record with salary 50 against bounds [100, 200] and no
dates satisfies the hypotheses, and the characterization holds for it (the
record is rejected, being nonzero and below the nonzero minimum). -/
theorem salary_bounds_enforced_modulo_truthiness_witness :
    c6wRecord.salary = some 50 ∧
    c6wRecord.position = some ⟨"Dev", some 100, some 200⟩ ∧
    dateOrderBad c6wRecord = false ∧
    ((∃ err, EmployeeCreateUpdateSerializer.validate none c6wRecord =
        .error err) ↔
      ((50 : Int) ≠ 0 ∧
        ((∃ m, (⟨"Dev", some 100, some 200⟩ : Position).min_salary = some m ∧
           m ≠ 0 ∧ (50 : Int) < m) ∨
         (∃ m, (⟨"Dev", some 100, some 200⟩ : Position).max_salary = some m ∧
           m ≠ 0 ∧ m < (50 : Int))))) :=
  ⟨rfl, rfl, rfl,
   salary_bounds_enforced_modulo_truthiness c6wRecord 50
     ⟨"Dev", some 100, some 200⟩ rfl rfl rfl⟩

/-- Updating the status of a row does not change which key slot it
occupies. -/
theorem attKeyMatches_setStatus (e : Nat) (dt : Date) (st : AttStatus)
    (a : Attendance) :
    attKeyMatches e dt { a with status := st } = attKeyMatches e dt a := rfl

/-- After an upsert for key (e, dt) on a table holding at most one row for
that key, the table holds exactly one row for it. -/
theorem countKey_update_self (db : List Attendance) (e : Nat) (dt : Date)
    (st : AttStatus) (h : countKey db e dt ≤ 1) :
    countKey (Attendance.update_or_create db e dt st) e dt = 1 := by
  unfold Attendance.update_or_create countKey at *
  by_cases hex : db.any (attKeyMatches e dt) = true
  · rw [if_pos hex, List.countP_map]
    have heq : List.countP ((attKeyMatches e dt) ∘ fun a =>
        if attKeyMatches e dt a then { a with status := st } else a) db =
        List.countP (attKeyMatches e dt) db := by
      apply List.countP_congr
      intro a _
      by_cases hk : attKeyMatches e dt a = true <;>
        simp [Function.comp, hk, attKeyMatches_setStatus]
    rw [heq]
    have hpos : 0 < List.countP (attKeyMatches e dt) db := by
      rw [List.countP_pos_iff]
      exact List.any_eq_true.mp hex
    omega
  · rw [if_neg hex, List.countP_append]
    have h0 : List.countP (attKeyMatches e dt) db = 0 := by
      rw [List.countP_eq_zero]
      intro a ha hpa
      exact hex (List.any_eq_true.mpr ⟨a, ha, hpa⟩)
    rw [h0]
    simp [attKeyMatches]

/-- An upsert for one key leaves the row count of every other key
unchanged. -/
theorem countKey_update_other (db : List Attendance) (e : Nat) (dt : Date)
    (st : AttStatus) (e2 : Nat) (dt2 : Date) (h : ¬(e2 = e ∧ dt2 = dt)) :
    countKey (Attendance.update_or_create db e dt st) e2 dt2 =
      countKey db e2 dt2 := by
  unfold Attendance.update_or_create countKey
  by_cases hex : db.any (attKeyMatches e dt) = true
  · rw [if_pos hex, List.countP_map]
    apply List.countP_congr
    intro a _
    by_cases hk : attKeyMatches e dt a = true <;>
      simp [Function.comp, hk, attKeyMatches_setStatus]
  · rw [if_neg hex, List.countP_append]
    have hnew : List.countP (attKeyMatches e2 dt2)
        [{ employee := e, date := dt, check_in := none, check_out := none,
           status := st, notes := "" }] = 0 := by
      simp only [List.countP_singleton, attKeyMatches]
      have hne : ¬(e = e2 ∧ dt = dt2) := fun hc => h ⟨hc.1.symm, hc.2.symm⟩
      simp [hne]
    rw [hnew]
    omega

/-- The upsert preserves the storage-layer uniqueness invariant. -/
theorem attUnique_update (db : List Attendance) (e : Nat) (dt : Date)
    (st : AttStatus) (h : attUnique db) :
    attUnique (Attendance.update_or_create db e dt st) := by
  intro e2 dt2
  by_cases hk : e2 = e ∧ dt2 = dt
  · obtain ⟨rfl, rfl⟩ := hk
    rw [countKey_update_self db e2 dt2 st (h e2 dt2)]
  · rw [countKey_update_other db e dt st e2 dt2 hk]
    exact h e2 dt2

/-- After an upsert, every row occupying the upserted key carries the
written status. -/
theorem update_status_at_key (db : List Attendance) (e : Nat) (dt : Date)
    (st : AttStatus) :
    ∀ a ∈ Attendance.update_or_create db e dt st,
      attKeyMatches e dt a = true → a.status = st := by
  intro a ha hk
  unfold Attendance.update_or_create at ha
  by_cases hex : db.any (attKeyMatches e dt) = true
  · rw [if_pos hex] at ha
    rcases List.mem_map.mp ha with ⟨x, hx, hfx⟩
    by_cases hxk : attKeyMatches e dt x = true
    · rw [if_pos hxk] at hfx
      subst hfx
      rfl
    · rw [if_neg hxk] at hfx
      subst hfx
      exact absurd hk hxk
  · rw [if_neg hex] at ha
    rcases List.mem_append.mp ha with hin | hin
    · exact absurd (List.any_eq_true.mpr ⟨a, hin, hk⟩) hex
    · rw [List.mem_singleton] at hin
      subst hin
      rfl

/-- Any sequence of upserts preserves the uniqueness invariant. -/
theorem attUnique_applyMarks (db : List Attendance)
    (ops : List (Nat × Date × AttStatus)) (h : attUnique db) :
    attUnique (applyMarks db ops) := by
  induction ops generalizing db with
  | nil => exact h
  | cons o rest ih => exact ih _ (attUnique_update db o.1 o.2.1 o.2.2 h)

/-- C4: marking attendance for (e, dt) twice with statuses s1 then s2
leaves exactly one record for that key, that record carries s2 (last write
wins), and no sequence of mark operations ever produces two records for
the same (employee, date) key. -/
theorem attendance_upsert_last_write_wins (db : List Attendance) (e : Nat)
    (dt : Date) (s1 s2 : AttStatus) (h : attUnique db) :
    countKey (Attendance.update_or_create
      (Attendance.update_or_create db e dt s1) e dt s2) e dt = 1 ∧
    (∀ a ∈ Attendance.update_or_create
        (Attendance.update_or_create db e dt s1) e dt s2,
      attKeyMatches e dt a = true → a.status = s2) ∧
    ∀ ops, attUnique (applyMarks db ops) := by
  refine ⟨?_, update_status_at_key _ e dt s2,
    fun ops => attUnique_applyMarks db ops h⟩
  have h1 : countKey (Attendance.update_or_create db e dt s1) e dt = 1 :=
    countKey_update_self db e dt s1 (h e dt)
  exact countKey_update_self _ e dt s2 (by omega)

/-- C4 witness: starting from the empty table (which satisfies the
uniqueness invariant), marking employee 1 on 2024-01-01 as present and then
absent leaves one record for the key, with status absent, and every mark
sequence keeps the invariant. -/
theorem attendance_upsert_last_write_wins_witness :
    attUnique ([] : List Attendance) ∧
    (countKey (Attendance.update_or_create
      (Attendance.update_or_create [] 1 ⟨2024, 1, 1⟩ .present)
        1 ⟨2024, 1, 1⟩ .absent) 1 ⟨2024, 1, 1⟩ = 1 ∧
    (∀ a ∈ Attendance.update_or_create
        (Attendance.update_or_create [] 1 ⟨2024, 1, 1⟩ .present)
          1 ⟨2024, 1, 1⟩ .absent,
      attKeyMatches 1 ⟨2024, 1, 1⟩ a = true → a.status = .absent) ∧
    ∀ ops, attUnique (applyMarks [] ops)) :=
  ⟨fun e dt => by simp [countKey],
   attendance_upsert_last_write_wins [] 1 ⟨2024, 1, 1⟩ .present .absent
     (fun e dt => by simp [countKey])⟩

/-- C5: evaluation of `bulk_mark` at the failing input — stored employees
1 and 3, ids [1, 2, 3] — shows the defect the spec flags: the loop marks
employee 1, then aborts with the integrity error at the unresolvable id 2,
and employee 3, though resolvable, is never marked. -/
theorem bulk_mark_aborts_at_first_bad_id :
    AttendanceViewSet.bulk_mark [1, 3] [] (some ⟨2024, 1, 1⟩) [1, 2, 3]
        .present =
      ([{ employee := 1, date := ⟨2024, 1, 1⟩, check_in := none,
          check_out := none, status := .present, notes := "" }],
       some "IntegrityError") ∧
    countKey (AttendanceViewSet.bulk_mark [1, 3] [] (some ⟨2024, 1, 1⟩)
        [1, 2, 3] .present).1 3 ⟨2024, 1, 1⟩ = 0 :=
  ⟨by decide, by decide⟩

/-- Saving an updated row whose pk is the looked-up pk: the subsequent
lookup returns exactly the updated row (when the pk was present). -/
theorem findByPk_updateByPk (db : List LeaveRequest) (pk : Nat)
    (newR : LeaveRequest) (h : newR.pk = pk) :
    findByPk (updateByPk db pk newR) pk =
      (findByPk db pk).map (fun _ => newR) := by
  induction db with
  | nil => rfl
  | cons q rest ih =>
    by_cases hq : q.pk = pk
    · simp only [findByPk, updateByPk, List.map_cons, if_pos hq]
      rw [List.find?_cons_of_pos _ (by simp [h]),
          List.find?_cons_of_pos _ (by simp [hq])]
      rfl
    · simp only [findByPk, updateByPk, List.map_cons, if_neg hq]
      rw [List.find?_cons_of_neg _ (by simp [hq]),
          List.find?_cons_of_neg _ (by simp [hq])]
      exact ih

/-- Saving an updated row for one pk neither adds nor removes rows carrying
any other pk. -/
theorem mem_updateByPk_iff (db : List LeaveRequest) (pk : Nat)
    (newR : LeaveRequest) (q : LeaveRequest) (hpk : newR.pk = pk)
    (hq : q.pk ≠ pk) :
    (q ∈ updateByPk db pk newR ↔ q ∈ db) := by
  unfold updateByPk
  constructor
  · intro hmem
    rcases List.mem_map.mp hmem with ⟨x, hx, hfx⟩
    by_cases hxpk : x.pk = pk
    · rw [if_pos hxpk] at hfx
      subst hfx
      exact absurd hpk hq
    · rw [if_neg hxpk] at hfx
      subst hfx
      exact hx
  · intro hmem
    refine List.mem_map.mpr ⟨q, hmem, ?_⟩
    rw [if_neg hq]

/-- C1: for the fetched leave request r, `approve` succeeds iff r is
pending, in which case the stored row becomes r with status approved and
the actor and timestamp recorded (all other fields unchanged) and no other
row changes; when r is not pending the table is returned unchanged with the
illegal-transition error.  Likewise `reject`, additionally recording the
given rejection reason. -/
theorem leave_transitions_pending_only (db : List LeaveRequest)
    (pk actor now : Nat) (reason : String) (r : LeaveRequest)
    (hfind : findByPk db pk = some r) :
    ((LeaveRequestViewSet.approve db pk actor now).2 = .ok () ↔
      r.status = .pending) ∧
    (r.status = .pending →
      findByPk (LeaveRequestViewSet.approve db pk actor now).1 pk =
        some { r with status := .approved, approved_by := some actor,
                      approval_date := some now } ∧
      ∀ q : LeaveRequest, q.pk ≠ pk →
        (q ∈ (LeaveRequestViewSet.approve db pk actor now).1 ↔ q ∈ db)) ∧
    (r.status ≠ .pending →
      (LeaveRequestViewSet.approve db pk actor now).1 = db ∧
      (LeaveRequestViewSet.approve db pk actor now).2 =
        .error (.badRequest "Only pending requests can be approved")) ∧
    ((LeaveRequestViewSet.reject db pk actor now reason).2 = .ok () ↔
      r.status = .pending) ∧
    (r.status = .pending →
      findByPk (LeaveRequestViewSet.reject db pk actor now reason).1 pk =
        some { r with status := .rejected, approved_by := some actor,
                      approval_date := some now, rejection_reason := reason } ∧
      ∀ q : LeaveRequest, q.pk ≠ pk →
        (q ∈ (LeaveRequestViewSet.reject db pk actor now reason).1 ↔
          q ∈ db)) ∧
    (r.status ≠ .pending →
      (LeaveRequestViewSet.reject db pk actor now reason).1 = db ∧
      (LeaveRequestViewSet.reject db pk actor now reason).2 =
        .error (.badRequest "Only pending requests can be rejected")) := by
  have hrpk : r.pk = pk := by
    have h2 := hfind
    unfold findByPk at h2
    simpa using List.find?_some h2
  by_cases hs : r.status = .pending
  · have hcond : ¬(r.status ≠ .pending) := fun hc => hc hs
    refine ⟨?_, fun _ => ⟨?_, fun q hq => ?_⟩, fun hc => absurd hs hc,
            ?_, fun _ => ⟨?_, fun q hq => ?_⟩, fun hc => absurd hs hc⟩
    · simp [LeaveRequestViewSet.approve, hfind, if_neg hcond, hs]
    · simp only [LeaveRequestViewSet.approve, hfind, if_neg hcond]
      rw [findByPk_updateByPk db pk
        { r with status := .approved, approved_by := some actor,
                 approval_date := some now } hrpk, hfind]
      rfl
    · simp only [LeaveRequestViewSet.approve, hfind, if_neg hcond]
      exact mem_updateByPk_iff db pk _ q hrpk hq
    · simp [LeaveRequestViewSet.reject, hfind, if_neg hcond, hs]
    · simp only [LeaveRequestViewSet.reject, hfind, if_neg hcond]
      rw [findByPk_updateByPk db pk
        { r with status := .rejected, approved_by := some actor,
                 approval_date := some now, rejection_reason := reason }
        hrpk, hfind]
      rfl
    · simp only [LeaveRequestViewSet.reject, hfind, if_neg hcond]
      exact mem_updateByPk_iff db pk _ q hrpk hq
  · refine ⟨?_, fun hc => absurd hc hs, fun _ => ⟨?_, ?_⟩,
            ?_, fun hc => absurd hc hs, fun _ => ⟨?_, ?_⟩⟩
    · simp [LeaveRequestViewSet.approve, hfind, if_pos hs, hs]
    · simp [LeaveRequestViewSet.approve, hfind, if_pos hs]
    · simp [LeaveRequestViewSet.approve, hfind, if_pos hs]
    · simp [LeaveRequestViewSet.reject, hfind, if_pos hs, hs]
    · simp [LeaveRequestViewSet.reject, hfind, if_pos hs]
    · simp [LeaveRequestViewSet.reject, hfind, if_pos hs]

/-- C1 witness: on the one-row table holding the pending request rPend,
approving/rejecting pk 1 by actor 9 at time 77 exhibits the full
characterization. -/
theorem leave_transitions_pending_only_witness :
    findByPk [rPend] 1 = some rPend ∧
    (((LeaveRequestViewSet.approve [rPend] 1 9 77).2 = .ok () ↔
      rPend.status = .pending) ∧
    (rPend.status = .pending →
      findByPk (LeaveRequestViewSet.approve [rPend] 1 9 77).1 1 =
        some { rPend with status := .approved, approved_by := some 9,
                          approval_date := some 77 } ∧
      ∀ q : LeaveRequest, q.pk ≠ 1 →
        (q ∈ (LeaveRequestViewSet.approve [rPend] 1 9 77).1 ↔
          q ∈ [rPend])) ∧
    (rPend.status ≠ .pending →
      (LeaveRequestViewSet.approve [rPend] 1 9 77).1 = [rPend] ∧
      (LeaveRequestViewSet.approve [rPend] 1 9 77).2 =
        .error (.badRequest "Only pending requests can be approved")) ∧
    ((LeaveRequestViewSet.reject [rPend] 1 9 77 "no").2 = .ok () ↔
      rPend.status = .pending) ∧
    (rPend.status = .pending →
      findByPk (LeaveRequestViewSet.reject [rPend] 1 9 77 "no").1 1 =
        some { rPend with status := .rejected, approved_by := some 9,
                          approval_date := some 77,
                          rejection_reason := "no" } ∧
      ∀ q : LeaveRequest, q.pk ≠ 1 →
        (q ∈ (LeaveRequestViewSet.reject [rPend] 1 9 77 "no").1 ↔
          q ∈ [rPend])) ∧
    (rPend.status ≠ .pending →
      (LeaveRequestViewSet.reject [rPend] 1 9 77 "no").1 = [rPend] ∧
      (LeaveRequestViewSet.reject [rPend] 1 9 77 "no").2 =
        .error (.badRequest "Only pending requests can be rejected"))) :=
  ⟨rfl, leave_transitions_pending_only [rPend] 1 9 77 "no" rPend rfl⟩

end EMS
